import Mathlib

/-!
# Verification of the JWT token service (`pkg/auth`)

Shallow embedding of the `auth` package: the `TokenService` with its
issuance operations (`GenerateAccessToken`, `GenerateRefreshToken`,
`GenerateTokenPair`) and its two parsing operations (`ValidateToken`,
`GetClaimsFromToken`), built on `golang-jwt/jwt/v5`'s
`ParseWithClaims`.

Modelling decisions:
* Time (`time.Time`) and durations (`time.Duration`) are integers
  (nanoseconds since epoch); `time.Now()` is an explicit `now`
  parameter.  The two `time.Now()` calls inside one issuance operation
  are the same instant.
* Cryptography is symbolic: an HMAC signature is the triple of the
  algorithm, the key and the signed content, and verification is
  structural equality.  Distinct keys or contents give distinct
  signatures (no MAC collisions).
* A token string is either `malformed` (empty, not three dot-separated
  segments, or segments that do not decode) or a well-formed `token`
  carrying the header's algorithm, the claims payload and a signature
  value.  This is exactly the case split `ParseUnverified` performs.
* `jwt/v5`'s `ParseWithClaims` is embedded with its v5 order of
  checks: split/decode, keyfunc, signature verification, then (unless
  `WithoutClaimsValidation` is given) registered-claims validation.
  The default validator checks `exp` (token valid while `now < exp`)
  and `nbf` (valid once `nbf ≤ now`) when present, and does not check
  `iat` without the `WithIssuedAt` option.
-/

namespace ECommerceAuth

/-- JWT signing algorithms that can appear in a token header.  `HS256`,
`HS384`, `HS512` are the HMAC family (`*jwt.SigningMethodHMAC`);
`noneAlg` is the unsigned `"none"` method; `RS256` stands for the
asymmetric methods. -/
inductive Alg where
  | HS256
  | HS384
  | HS512
  | noneAlg
  | RS256
deriving DecidableEq, Repr

/-- The type switch `token.Method.(*jwt.SigningMethodHMAC)` in
`ValidateToken`'s keyfunc: true exactly for the HMAC family. -/
def Alg.isHMAC : Alg → Bool
  | .HS256 => true
  | .HS384 => true
  | .HS512 => true
  | .noneAlg => false
  | .RS256 => false

/-- The registered claims the service sets or the validator reads:
`jwt.RegisteredClaims`' `ExpiresAt`, `IssuedAt` and `NotBefore`
numeric dates, each optional. -/
structure RegisteredClaims where
  expiresAt : Option Int
  issuedAt : Option Int
  notBefore : Option Int
deriving DecidableEq, Repr

/-- The `Claims` struct of the package: `UserID`, `Email`, `Role` plus
the embedded `jwt.RegisteredClaims`. -/
structure Claims where
  userID : String
  email : String
  role : String
  registered : RegisteredClaims
deriving DecidableEq, Repr

/-- Symbolic MAC value: the signature bytes of a token are determined
by the signing algorithm, the key and the signed content, and two
signatures are equal exactly when all three agree. -/
structure Signature where
  alg : Alg
  key : String
  content : Claims
deriving DecidableEq, Repr

/-- A candidate token string as `ParseUnverified` sees it: either
`malformed` (empty, wrong number of segments, or undecodable
segments), or a well-formed three-segment token with a header
algorithm, a claims payload and a signature segment. -/
inductive TokenStr where
  | malformed (s : String)
  | token (alg : Alg) (claims : Claims) (sig : Signature)
deriving DecidableEq, Repr

/-- The claims payload embedded in a well-formed token string. -/
def TokenStr.embeddedClaims : TokenStr → Option Claims
  | .malformed _ => none
  | .token _ claims _ => some claims

/-- The exported errors of the package (`ErrInvalidToken`,
`ErrTokenExpired`) plus a constructor for any other Go error value
(such as a `SignedString` failure). -/
inductive GoError where
  | invalidToken
  | tokenExpired
  | other (msg : String)
deriving DecidableEq, Repr

/-- The `TokenService` struct: secret key bytes and the two configured
durations. -/
structure TokenService where
  secret : String
  accessTokenDuration : Int
  refreshTokenDuration : Int
deriving DecidableEq, Repr

/-- `NewTokenService`. -/
def newTokenService (secret : String) (accessDuration refreshDuration : Int) : TokenService :=
  { secret := secret
    accessTokenDuration := accessDuration
    refreshTokenDuration := refreshDuration }

/-- `token.Method.Verify(signingString, signature, key)` for a
`[]byte` key, as each method implements it:
* an HMAC method recomputes the MAC of the content under the key and
  compares — symbolically, the signature equals the triple;
* `SigningMethodNone.Verify` fails unless the key is the special
  `UnsafeAllowNoneSignatureType` constant, which a `[]byte` secret
  never is;
* an asymmetric method fails on a `[]byte` key with a key-type error. -/
def methodVerify (alg : Alg) (key : String) (claims : Claims) (sig : Signature) : Bool :=
  alg.isHMAC && decide (sig = { alg := alg, key := key, content := claims })

/-- Outcome of `jwt/v5` `ParseWithClaims`, refined enough to decide
`errors.Is(err, jwt.ErrTokenExpired)`:
* `malformed`: `ParseUnverified` failed (`ErrTokenMalformed`);
* `keyfuncError`: the keyfunc returned an error (`ErrTokenUnverifiable`
  wrapping it);
* `signatureInvalid`: `token.Method.Verify` failed
  (`ErrTokenSignatureInvalid`);
* `invalidClaims expired`: the validator failed
  (`ErrTokenInvalidClaims`); `expired` records whether the joined
  validation errors include `jwt.ErrTokenExpired`. -/
inductive ParseError where
  | malformed
  | keyfuncError (e : GoError)
  | signatureInvalid
  | invalidClaims (expired : Bool)
deriving DecidableEq, Repr

/-- `errors.Is(err, jwt.ErrTokenExpired)` on a parse error. -/
def ParseError.isTokenExpired : ParseError → Bool
  | .invalidClaims expired => expired
  | _ => false

/-- The default validator's `exp` check: when `ExpiresAt` is present
the token must still satisfy `now < exp` (no leeway); a missing `exp`
is accepted (the parser is not configured with `WithExpirationRequired`). -/
def expCheckFails (now : Int) (c : Claims) : Bool :=
  match c.registered.expiresAt with
  | some exp => decide (exp ≤ now)
  | none => false

/-- The default validator's `nbf` check: when `NotBefore` is present
the token must satisfy `nbf ≤ now`. -/
def nbfCheckFails (now : Int) (c : Claims) : Bool :=
  match c.registered.notBefore with
  | some nbf => decide (now < nbf)
  | none => false

/-- `jwt.ParseWithClaims(tokenString, &Claims{}, keyfunc, opts...)` in
`jwt/v5` order: split and decode the segments, call the keyfunc on the
parsed token, verify the signature with the returned key, and finally
(unless `jwt.WithoutClaimsValidation()` was given) run the default
claims validator. -/
def parseWithClaims (keyfunc : Alg → Except GoError String)
    (skipClaimsValidation : Bool) (now : Int) (s : TokenStr) :
    Except ParseError Claims :=
  match s with
  | .malformed _ => .error .malformed
  | .token alg claims sig =>
    match keyfunc alg with
    | .error e => .error (.keyfuncError e)
    | .ok key =>
      if methodVerify alg key claims sig then
        if skipClaimsValidation then
          .ok claims
        else
          let expFailed := expCheckFails now claims
          let nbfFailed := nbfCheckFails now claims
          if expFailed || nbfFailed then
            .error (.invalidClaims expFailed)
          else
            .ok claims
      else
        .error .signatureInvalid

/-- `SignedString(ts.secret)` on a token built by
`jwt.NewWithClaims(method, claims)`: serialises header and claims and
signs them.  Signing HMAC over serialisable claims never fails, so the
result is always `ok`; the `Except` mirrors the Go `(string, error)`
return. -/
def signedString (alg : Alg) (secret : String) (claims : Claims) :
    Except GoError TokenStr :=
  .ok (.token alg claims { alg := alg, key := secret, content := claims })

/-- `GenerateAccessToken`: claims carry the inputs, `ExpiresAt` is
`now + accessTokenDuration`, `IssuedAt` is `now`, and the token is
signed with `jwt.SigningMethodHS256` under the service secret. -/
def generateAccessToken (ts : TokenService) (now : Int)
    (userID email role : String) : Except GoError TokenStr :=
  let claims : Claims :=
    { userID := userID
      email := email
      role := role
      registered :=
        { expiresAt := some (now + ts.accessTokenDuration)
          issuedAt := some now
          notBefore := none } }
  signedString .HS256 ts.secret claims

/-- `GenerateRefreshToken`: as the access token but with
`refreshTokenDuration`. -/
def generateRefreshToken (ts : TokenService) (now : Int)
    (userID email role : String) : Except GoError TokenStr :=
  let claims : Claims :=
    { userID := userID
      email := email
      role := role
      registered :=
        { expiresAt := some (now + ts.refreshTokenDuration)
          issuedAt := some now
          notBefore := none } }
  signedString .HS256 ts.secret claims

/-- `GenerateTokenPair`: generate the access token, on error return
`("", "", err)`; then the refresh token, on error return
`("", "", err)`; otherwise both tokens and no error. -/
def generateTokenPair (ts : TokenService) (now : Int)
    (userID email role : String) : TokenStr × TokenStr × Option GoError :=
  match generateAccessToken ts now userID email role with
  | .error e => (.malformed "", .malformed "", some e)
  | .ok accessToken =>
    match generateRefreshToken ts now userID email role with
    | .error e => (.malformed "", .malformed "", some e)
    | .ok refreshToken => (accessToken, refreshToken, none)

/-- `ValidateToken`: parse with a keyfunc that rejects any
non-HMAC signing method with `ErrInvalidToken` and otherwise returns
the secret; on a parse error return `ErrTokenExpired` when
`errors.Is(err, jwt.ErrTokenExpired)` and `ErrInvalidToken` otherwise;
on success the claims assertion and `token.Valid` both hold and the
claims are returned. -/
def validateToken (ts : TokenService) (now : Int) (s : TokenStr) :
    Except GoError Claims :=
  match parseWithClaims
      (fun alg => if alg.isHMAC then .ok ts.secret else .error .invalidToken)
      false now s with
  | .error err =>
    if err.isTokenExpired then .error .tokenExpired else .error .invalidToken
  | .ok claims => .ok claims

/-- `GetClaimsFromToken`: parse with a keyfunc that always returns the
secret and with `jwt.WithoutClaimsValidation()`; any parse error
becomes `ErrInvalidToken`; on success the claims are returned. -/
def getClaimsFromToken (ts : TokenService) (now : Int) (s : TokenStr) :
    Except GoError Claims :=
  match parseWithClaims (fun _ => .ok ts.secret) true now s with
  | .error _ => .error .invalidToken
  | .ok claims => .ok claims

deriving instance DecidableEq for Except

/-! ## Spec-side predicates and concrete data

`c2SpecCondition` and `nbfOk` transcribe conditions stated by the
spec, to be compared with the behaviour of the embedded code; the `w*`
definitions are concrete services, claims and tokens used to evaluate
the development on closed inputs. -/

/-- The condition under which the spec says `ValidateToken` fails with
`ErrInvalidToken`, following its words: the string is empty or not
three valid dot-separated segments (`malformed`), the header declares
a signing algorithm outside the HMAC family, or the signature does not
verify under the configured secret. -/
def c2SpecCondition (ts : TokenService) (s : TokenStr) : Bool :=
  match s with
  | .malformed _ => true
  | .token alg claims sig =>
    !alg.isHMAC || !methodVerify alg ts.secret claims sig

/-- The spec's conditions for `ErrInvalidToken`, amended with the one
further case the code exhibits: a verifying HMAC token whose
registered-claims validation fails for a non-expiry reason (`nbf` in
the future) while the expiry check passes. -/
def c2AmendedCondition (ts : TokenService) (now : Int) (s : TokenStr) : Bool :=
  match s with
  | .malformed _ => true
  | .token alg claims sig =>
    !alg.isHMAC || !methodVerify alg ts.secret claims sig ||
      (nbfCheckFails now claims && !expCheckFails now claims)

/-- The token string carries no `nbf` constraint violated at `now`:
it is malformed, has no `nbf` claim, or its `nbf` has been reached. -/
def nbfOk (now : Int) (s : TokenStr) : Bool :=
  match s with
  | .malformed _ => true
  | .token _ claims _ => !nbfCheckFails now claims

/-- Concrete service used for closed-input evaluations: secret `"k"`,
access duration 10, refresh duration 20. -/
def wTS : TokenService := newTokenService "k" 10 20

/-- Claims as issued by `wTS` at time 0 for user `"u"`. -/
def wClaims : Claims :=
  { userID := "u", email := "e", role := "r",
    registered := { expiresAt := some 10, issuedAt := some 0, notBefore := none } }

/-- The access token `wTS` issues at time 0 for user `"u"`. -/
def wTok : TokenStr :=
  .token .HS256 wClaims { alg := .HS256, key := "k", content := wClaims }

/-- Claims for a hand-crafted HS384 token under `wTS`'s secret. -/
def wClaims384 : Claims :=
  { userID := "u2", email := "e2", role := "r2",
    registered := { expiresAt := some 100, issuedAt := some 0, notBefore := none } }

/-- Claims with a future `nbf` (50) and a far expiry (100), never
produced by the issuance operations. -/
def wClaimsNbf : Claims :=
  { userID := "u3", email := "e3", role := "r3",
    registered := { expiresAt := some 100, issuedAt := some 0, notBefore := some 50 } }

/-- A token over `wClaimsNbf`, correctly HS256-signed under `wTS`'s
secret. -/
def wTokNbf : TokenStr :=
  .token .HS256 wClaimsNbf { alg := .HS256, key := "k", content := wClaimsNbf }

/-! ## Theorems for the claims -/

/-- C1: for every subjectID, email and role, if the access-token
duration is positive and the validation time has not reached the
token's expiry, `ValidateToken` applied to the string produced by
`GenerateAccessToken(subjectID, email, role)` on the same
`TokenService` succeeds and returns `Claims` whose `UserID`, `Email`
and `Role` equal the inputs. -/
theorem C1_access_token_roundtrip (ts : TokenService) (now t : Int)
    (userID email role : String)
    (hdur : 0 < ts.accessTokenDuration)
    (ht : t < now + ts.accessTokenDuration) :
    ∃ tok, generateAccessToken ts now userID email role = .ok tok ∧
      ∃ c, validateToken ts t tok = .ok c ∧
        c.userID = userID ∧ c.email = email ∧ c.role = role := by
  refine ⟨_, rfl,
    { userID := userID, email := email, role := role,
      registered :=
        { expiresAt := some (now + ts.accessTokenDuration)
          issuedAt := some now
          notBefore := none } }, ?_, rfl, rfl, rfl⟩
  have hexp : (decide (now + ts.accessTokenDuration ≤ t)) = false := by
    simp only [decide_eq_false_iff_not]
    omega
  simp [validateToken, parseWithClaims, generateAccessToken, signedString,
    methodVerify, Alg.isHMAC, expCheckFails, nbfCheckFails, hexp]

theorem C1_access_token_roundtrip_witness :
    ∃ tok, generateAccessToken (newTokenService "secret" 10 20) 0 "u1" "a@b.c" "admin"
        = .ok tok ∧
      ∃ c, validateToken (newTokenService "secret" 10 20) 5 tok = .ok c ∧
        c.userID = "u1" ∧ c.email = "a@b.c" ∧ c.role = "admin" :=
  C1_access_token_roundtrip (newTokenService "secret" 10 20) 0 5 "u1" "a@b.c" "admin"
    (by decide) (by decide)

/-- Helper: `ValidateToken` on a well-formed HS256 token correctly
signed under the service secret, with an `exp` claim and no `nbf`
claim, is decided by the expiry check alone. -/
theorem validateToken_hs256_wellSigned (ts : TokenService) (t : Int) (c : Claims)
    (e : Int) (hexp : c.registered.expiresAt = some e)
    (hnbf : c.registered.notBefore = none) :
    validateToken ts t (.token .HS256 c { alg := .HS256, key := ts.secret, content := c })
      = (if e ≤ t then .error .tokenExpired else .ok c) := by
  simp only [validateToken, parseWithClaims, methodVerify, Alg.isHMAC,
    expCheckFails, nbfCheckFails, hexp, hnbf]
  by_cases h : e ≤ t <;>
    simp [h, ParseError.isTokenExpired]

/-- C3: a token issued with duration `d` at time `now` validates
successfully at any time `t < now + d` and fails with
`ErrTokenExpired` (not `ErrInvalidToken`) at any time
`t ≥ now + d`, for both access and refresh tokens (whose signatures
verify and whose structure is well-formed by construction). -/
theorem C3_expiry_boundary (ts : TokenService) (now t : Int)
    (userID email role : String) (accessTok refreshTok : TokenStr)
    (ha : generateAccessToken ts now userID email role = .ok accessTok)
    (hr : generateRefreshToken ts now userID email role = .ok refreshTok) :
    ((t < now + ts.accessTokenDuration → ∃ c, validateToken ts t accessTok = .ok c) ∧
      (now + ts.accessTokenDuration ≤ t →
        validateToken ts t accessTok = .error .tokenExpired)) ∧
    ((t < now + ts.refreshTokenDuration → ∃ c, validateToken ts t refreshTok = .ok c) ∧
      (now + ts.refreshTokenDuration ≤ t →
        validateToken ts t refreshTok = .error .tokenExpired)) := by
  simp only [generateAccessToken, generateRefreshToken, signedString,
    Except.ok.injEq] at ha hr
  subst ha hr
  refine ⟨⟨?_, ?_⟩, ?_, ?_⟩ <;> intro h
  · exact ⟨_, by rw [validateToken_hs256_wellSigned ts t _ (now + ts.accessTokenDuration)
      rfl rfl, if_neg (by omega)]⟩
  · rw [validateToken_hs256_wellSigned ts t _ (now + ts.accessTokenDuration) rfl rfl,
      if_pos h]
  · exact ⟨_, by rw [validateToken_hs256_wellSigned ts t _ (now + ts.refreshTokenDuration)
      rfl rfl, if_neg (by omega)]⟩
  · rw [validateToken_hs256_wellSigned ts t _ (now + ts.refreshTokenDuration) rfl rfl,
      if_pos h]

theorem C3_expiry_boundary_witness :
    ∃ accessTok refreshTok,
      generateAccessToken (newTokenService "k" 10 20) 0 "u" "e" "r" = .ok accessTok ∧
      generateRefreshToken (newTokenService "k" 10 20) 0 "u" "e" "r" = .ok refreshTok ∧
      (((5 : Int) < 0 + (newTokenService "k" 10 20).accessTokenDuration →
          ∃ c, validateToken (newTokenService "k" 10 20) 5 accessTok = .ok c) ∧
        (0 + (newTokenService "k" 10 20).accessTokenDuration ≤ (5 : Int) →
          validateToken (newTokenService "k" 10 20) 5 accessTok = .error .tokenExpired)) ∧
      (((5 : Int) < 0 + (newTokenService "k" 10 20).refreshTokenDuration →
          ∃ c, validateToken (newTokenService "k" 10 20) 5 refreshTok = .ok c) ∧
        (0 + (newTokenService "k" 10 20).refreshTokenDuration ≤ (5 : Int) →
          validateToken (newTokenService "k" 10 20) 5 refreshTok = .error .tokenExpired)) :=
  ⟨_, _, rfl, rfl, C3_expiry_boundary (newTokenService "k" 10 20) 0 5 "u" "e" "r" _ _ rfl rfl⟩

/-- C8: for positive configured durations, both issuance operations
embed `expires_at = issued_at + duration` for their token kind, and in
particular `expires_at` is strictly after `issued_at`. -/
theorem C8_expiry_after_issue (ts : TokenService) (now : Int)
    (userID email role : String)
    (ha : 0 < ts.accessTokenDuration) (hr : 0 < ts.refreshTokenDuration) :
    (∀ alg c sig, generateAccessToken ts now userID email role = .ok (.token alg c sig) →
      c.registered.expiresAt = some (now + ts.accessTokenDuration) ∧
      c.registered.issuedAt = some now ∧
      ∃ i e, c.registered.issuedAt = some i ∧ c.registered.expiresAt = some e ∧ i < e) ∧
    (∀ alg c sig, generateRefreshToken ts now userID email role = .ok (.token alg c sig) →
      c.registered.expiresAt = some (now + ts.refreshTokenDuration) ∧
      c.registered.issuedAt = some now ∧
      ∃ i e, c.registered.issuedAt = some i ∧ c.registered.expiresAt = some e ∧ i < e) := by
  constructor <;> rintro alg c sig h <;>
    simp only [generateAccessToken, generateRefreshToken, signedString, Except.ok.injEq,
      TokenStr.token.injEq] at h <;>
    obtain ⟨-, hc, -⟩ := h <;> subst hc <;>
    exact ⟨rfl, rfl, now, _, rfl, rfl, by omega⟩

theorem C8_expiry_after_issue_witness :
    (∀ alg c sig,
        generateAccessToken (newTokenService "k" 10 20) 3 "u" "e" "r" = .ok (.token alg c sig) →
      c.registered.expiresAt = some (3 + (newTokenService "k" 10 20).accessTokenDuration) ∧
      c.registered.issuedAt = some 3 ∧
      ∃ i e, c.registered.issuedAt = some i ∧ c.registered.expiresAt = some e ∧ i < e) ∧
    (∀ alg c sig,
        generateRefreshToken (newTokenService "k" 10 20) 3 "u" "e" "r" = .ok (.token alg c sig) →
      c.registered.expiresAt = some (3 + (newTokenService "k" 10 20).refreshTokenDuration) ∧
      c.registered.issuedAt = some 3 ∧
      ∃ i e, c.registered.issuedAt = some i ∧ c.registered.expiresAt = some e ∧ i < e) :=
  C8_expiry_after_issue (newTokenService "k" 10 20) 3 "u" "e" "r" (by decide) (by decide)

/-- C5: `GenerateTokenPair` is all-or-nothing: when it reports an
error both returned token strings are empty, and when it succeeds
(with positive configured durations) both tokens validate under
`ValidateToken` and carry identical `UserID`, `Email` and `Role`. -/
theorem C5_pair_atomicity (ts : TokenService) (now : Int) (userID email role : String)
    (had : 0 < ts.accessTokenDuration) (hrd : 0 < ts.refreshTokenDuration) :
    (∀ a r e, generateTokenPair ts now userID email role = (a, r, some e) →
      a = .malformed "" ∧ r = .malformed "") ∧
    (∀ a r, generateTokenPair ts now userID email role = (a, r, none) →
      ∃ ca cr, validateToken ts now a = .ok ca ∧ validateToken ts now r = .ok cr ∧
        ca.userID = cr.userID ∧ ca.email = cr.email ∧ ca.role = cr.role) := by
  constructor
  · rintro a r e h
    simp [generateTokenPair, generateAccessToken, generateRefreshToken, signedString,
      Prod.ext_iff] at h
  · rintro a r h
    simp only [generateTokenPair, generateAccessToken, generateRefreshToken, signedString,
      Prod.mk.injEq] at h
    obtain ⟨ha, hr, -⟩ := h
    subst ha
    subst hr
    refine ⟨{ userID := userID, email := email, role := role,
              registered := { expiresAt := some (now + ts.accessTokenDuration),
                              issuedAt := some now, notBefore := none } },
            { userID := userID, email := email, role := role,
              registered := { expiresAt := some (now + ts.refreshTokenDuration),
                              issuedAt := some now, notBefore := none } },
            ?_, ?_, rfl, rfl, rfl⟩
    · rw [validateToken_hs256_wellSigned ts now _ (now + ts.accessTokenDuration) rfl rfl,
        if_neg (by omega)]
    · rw [validateToken_hs256_wellSigned ts now _ (now + ts.refreshTokenDuration) rfl rfl,
        if_neg (by omega)]

theorem C5_pair_atomicity_witness :
    (∀ a r e, generateTokenPair (newTokenService "k" 10 20) 0 "u" "e" "r" = (a, r, some e) →
      a = .malformed "" ∧ r = .malformed "") ∧
    (∀ a r, generateTokenPair (newTokenService "k" 10 20) 0 "u" "e" "r" = (a, r, none) →
      ∃ ca cr, validateToken (newTokenService "k" 10 20) 0 a = .ok ca ∧
        validateToken (newTokenService "k" 10 20) 0 r = .ok cr ∧
        ca.userID = cr.userID ∧ ca.email = cr.email ∧ ca.role = cr.role) :=
  C5_pair_atomicity (newTokenService "k" 10 20) 0 "u" "e" "r" (by decide) (by decide)

/-- C6: a token issued (as access or refresh token) by a service
constructed with secret `a` fails with `ErrInvalidToken` under
`ValidateToken` of a service constructed with any secret `b ≠ a`. -/
theorem C6_secret_isolation (a b : String) (hab : a ≠ b)
    (da dr db1 db2 now t : Int) (userID email role : String) (tok : TokenStr)
    (h : generateAccessToken (newTokenService a da dr) now userID email role = .ok tok ∨
         generateRefreshToken (newTokenService a da dr) now userID email role = .ok tok) :
    validateToken (newTokenService b db1 db2) t tok = .error .invalidToken := by
  rcases h with h | h <;>
    simp only [generateAccessToken, generateRefreshToken, signedString, newTokenService,
      Except.ok.injEq] at h <;> subst h <;>
    simp [validateToken, parseWithClaims, methodVerify, Alg.isHMAC, newTokenService,
      Signature.mk.injEq, ParseError.isTokenExpired, hab]

theorem C6_secret_isolation_witness :
    ∃ tok, generateAccessToken (newTokenService "A" 10 20) 0 "u" "e" "r" = .ok tok ∧
      validateToken (newTokenService "B" 30 40) 5 tok = .error .invalidToken :=
  ⟨_, rfl, C6_secret_isolation "A" "B" (by decide) 10 20 30 40 0 5 "u" "e" "r" _ (Or.inl rfl)⟩

/-- Helper: the default validator's expiry check passes when every
`exp` claim present lies strictly in the future. -/
theorem expCheckFails_eq_false (t : Int) (c : Claims)
    (hexp : ∀ e, c.registered.expiresAt = some e → t < e) :
    expCheckFails t c = false := by
  unfold expCheckFails
  cases h : c.registered.expiresAt with
  | none => rfl
  | some e =>
    have := hexp e h
    simp only [decide_eq_false_iff_not]
    omega

/-- C4: whenever `ValidateToken` fails with `ErrTokenExpired`,
`GetClaimsFromToken` on the same string and service succeeds and
returns exactly the claims embedded in the token (hence the `UserID`
set at issuance); and `GetClaimsFromToken` never returns
`ErrTokenExpired` on any input. -/
theorem C4_lenient_expired_read (ts : TokenService) (t : Int) (s : TokenStr)
    (hv : validateToken ts t s = .error .tokenExpired) :
    (∃ c, getClaimsFromToken ts t s = .ok c ∧ s.embeddedClaims = some c) ∧
    (∀ s2 : TokenStr, ∀ t2 : Int, getClaimsFromToken ts t2 s2 ≠ .error .tokenExpired) := by
  constructor
  · cases s with
    | malformed str =>
      simp [validateToken, parseWithClaims, ParseError.isTokenExpired] at hv
    | token alg claims sig =>
      refine ⟨claims, ?_, rfl⟩
      by_cases hA : alg.isHMAC = true
      · by_cases hS : methodVerify alg ts.secret claims sig = true
        · simp [getClaimsFromToken, parseWithClaims, TokenStr.embeddedClaims, hA, hS]
        · simp [validateToken, parseWithClaims, hA, hS, ParseError.isTokenExpired] at hv
      · simp [validateToken, parseWithClaims, hA, ParseError.isTokenExpired] at hv
  · intro s2 t2
    cases s2 with
    | malformed str => simp [getClaimsFromToken, parseWithClaims]
    | token alg claims sig =>
      by_cases hS : methodVerify alg ts.secret claims sig = true <;>
        simp [getClaimsFromToken, parseWithClaims, hS]

theorem C4_lenient_expired_read_witness :
    (∃ c, getClaimsFromToken wTS 50 wTok = .ok c ∧ wTok.embeddedClaims = some c) ∧
    (∀ s2 : TokenStr, ∀ t2 : Int, getClaimsFromToken wTS t2 s2 ≠ .error .tokenExpired) :=
  C4_lenient_expired_read wTS 50 wTok (by decide)

/-- C9: `ValidateToken`'s allow-list is the whole HMAC family, not
just the HS256 used at issuance: a well-formed token signed with HS384
under the service secret, with no expired `exp` and no pending `nbf`,
is accepted, although neither issuance operation (both of which sign
with HS256) ever produces it. -/
theorem C9_hs384_accepted (ts : TokenService) (t : Int) (c : Claims)
    (hexp : ∀ e, c.registered.expiresAt = some e → t < e)
    (hnbf : ∀ n, c.registered.notBefore = some n → n ≤ t) :
    validateToken ts t (.token .HS384 c { alg := .HS384, key := ts.secret, content := c })
      = .ok c ∧
    (∀ now userID email role,
      generateAccessToken ts now userID email role ≠
        .ok (.token .HS384 c { alg := .HS384, key := ts.secret, content := c }) ∧
      generateRefreshToken ts now userID email role ≠
        .ok (.token .HS384 c { alg := .HS384, key := ts.secret, content := c })) := by
  constructor
  · have he := expCheckFails_eq_false t c hexp
    have hn : nbfCheckFails t c = false := by
      unfold nbfCheckFails
      cases h : c.registered.notBefore with
      | none => rfl
      | some n =>
        have := hnbf n h
        simp only [decide_eq_false_iff_not]
        omega
    simp [validateToken, parseWithClaims, methodVerify, Alg.isHMAC, he, hn]
  · intro now userID email role
    constructor <;> simp [generateAccessToken, generateRefreshToken, signedString]

theorem C9_hs384_accepted_witness :
    validateToken wTS 5
        (.token .HS384 wClaims384 { alg := .HS384, key := wTS.secret, content := wClaims384 })
      = .ok wClaims384 ∧
    (∀ now userID email role,
      generateAccessToken wTS now userID email role ≠
        .ok (.token .HS384 wClaims384
          { alg := .HS384, key := wTS.secret, content := wClaims384 }) ∧
      generateRefreshToken wTS now userID email role ≠
        .ok (.token .HS384 wClaims384
          { alg := .HS384, key := wTS.secret, content := wClaims384 })) :=
  C9_hs384_accepted wTS 5 wClaims384
    (by
      intro e he
      simp only [wClaims384, Option.some.injEq] at he
      omega)
    (by
      intro n hn
      simp [wClaims384] at hn)

/-- C10: `GetClaimsFromToken` skips all registered-claims validation,
not only expiry: for a correctly signed token whose `nbf` lies in the
future and whose expiry check passes, `ValidateToken` fails with
`ErrInvalidToken` while `GetClaimsFromToken` succeeds and returns the
embedded claims. -/
theorem C10_nbf_validation_skipped (ts : TokenService) (t : Int) (c : Claims) (n : Int)
    (hn : c.registered.notBefore = some n) (hfut : t < n)
    (hexp : ∀ e, c.registered.expiresAt = some e → t < e) :
    validateToken ts t (.token .HS256 c { alg := .HS256, key := ts.secret, content := c })
      = .error .invalidToken ∧
    getClaimsFromToken ts t (.token .HS256 c { alg := .HS256, key := ts.secret, content := c })
      = .ok c := by
  have he := expCheckFails_eq_false t c hexp
  have hnb : nbfCheckFails t c = true := by
    unfold nbfCheckFails
    rw [hn]
    simpa using hfut
  constructor
  · simp [validateToken, parseWithClaims, methodVerify, Alg.isHMAC, he, hnb,
      ParseError.isTokenExpired]
  · simp [getClaimsFromToken, parseWithClaims, methodVerify, Alg.isHMAC]

theorem C10_nbf_validation_skipped_witness :
    validateToken wTS 5
        (.token .HS256 wClaimsNbf { alg := .HS256, key := wTS.secret, content := wClaimsNbf })
      = .error .invalidToken ∧
    getClaimsFromToken wTS 5
        (.token .HS256 wClaimsNbf { alg := .HS256, key := wTS.secret, content := wClaimsNbf })
      = .ok wClaimsNbf :=
  C10_nbf_validation_skipped wTS 5 wClaimsNbf 50 rfl (by decide)
    (by
      intro e he
      simp only [wClaimsNbf, Option.some.injEq] at he
      omega)

/-- C2 (counterexample): the claim's "exactly when" fails on the code:
at time 5 the well-signed, unexpired token `wTokNbf` (HS256 under the
configured secret, `exp = 100`, `nbf = 50`) makes `ValidateToken` fail
with `ErrInvalidToken`, yet none of the claim's listed conditions
holds for it. -/
theorem C2_invalid_conditions_counterexample :
    ¬ ((validateToken wTS 5 wTokNbf = .error .invalidToken) ↔
        c2SpecCondition wTS wTokNbf = true) := by
  decide

/-- C2 (amended): `ValidateToken` fails with `ErrInvalidToken` exactly
when the string is empty or malformed, the header algorithm is outside
the HMAC family, the signature does not verify under the configured
secret, or the signature verifies but a non-expiry registered-claims
check fails (`nbf` in the future) while the expiry check passes. -/
theorem C2_invalid_token_conditions (ts : TokenService) (now : Int) (s : TokenStr) :
    validateToken ts now s = .error .invalidToken ↔
      c2AmendedCondition ts now s = true := by
  cases s with
  | malformed str =>
    simp [validateToken, parseWithClaims, c2AmendedCondition, ParseError.isTokenExpired]
  | token alg claims sig =>
    by_cases hA : alg.isHMAC = true
    · by_cases hS : methodVerify alg ts.secret claims sig = true
      · by_cases hE : expCheckFails now claims = true
        · by_cases hN : nbfCheckFails now claims = true <;>
            simp [validateToken, parseWithClaims, c2AmendedCondition, hA, hS, hE, hN,
              ParseError.isTokenExpired]
        · by_cases hN : nbfCheckFails now claims = true <;>
            simp [validateToken, parseWithClaims, c2AmendedCondition, hA, hS, hE, hN,
              ParseError.isTokenExpired]
      · simp [validateToken, parseWithClaims, c2AmendedCondition, hA, hS,
          ParseError.isTokenExpired]
    · simp [validateToken, parseWithClaims, c2AmendedCondition, hA,
        methodVerify, ParseError.isTokenExpired]

/-- C7 (counterexample): the claimed equivalence fails on the code: on
the well-signed future-`nbf` token `wTokNbf` at time 5,
`ValidateToken` fails with `ErrInvalidToken` while
`GetClaimsFromToken` succeeds. -/
theorem C7_same_rejection_counterexample :
    ¬ ((getClaimsFromToken wTS 5 wTokNbf = .error .invalidToken) ↔
        (validateToken wTS 5 wTokNbf = .error .invalidToken)) := by
  decide

/-- C7 (amended): `GetClaimsFromToken` performs the same signature and
structural checks as `ValidateToken` but skips all registered-claims
validation; on every string whose `nbf` imposes no constraint at the
current time, it fails with `ErrInvalidToken` exactly when
`ValidateToken` does. -/
theorem C7_same_rejection (ts : TokenService) (now : Int) (s : TokenStr)
    (h : nbfOk now s = true) :
    (getClaimsFromToken ts now s = .error .invalidToken ↔
      validateToken ts now s = .error .invalidToken) := by
  cases s with
  | malformed str =>
    simp [getClaimsFromToken, validateToken, parseWithClaims, ParseError.isTokenExpired]
  | token alg claims sig =>
    simp only [nbfOk, Bool.not_eq_true'] at h
    by_cases hA : alg.isHMAC = true
    · by_cases hS : methodVerify alg ts.secret claims sig = true
      · by_cases hE : expCheckFails now claims = true <;>
          simp [getClaimsFromToken, validateToken, parseWithClaims, hA, hS, hE, h,
            ParseError.isTokenExpired]
      · simp [getClaimsFromToken, validateToken, parseWithClaims, hA, hS,
          ParseError.isTokenExpired]
    · have hS : methodVerify alg ts.secret claims sig = false := by
        simp only [Bool.not_eq_true] at hA
        simp [methodVerify, hA]
      simp [getClaimsFromToken, validateToken, parseWithClaims, hA, hS,
        ParseError.isTokenExpired]

theorem C7_same_rejection_witness :
    nbfOk 50 wTok = true ∧
    (getClaimsFromToken wTS 50 wTok = .error .invalidToken ↔
      validateToken wTS 50 wTok = .error .invalidToken) :=
  ⟨by decide, C7_same_rejection wTS 50 wTok (by decide)⟩

end ECommerceAuth
